import Mathlib

/-!
Verification development for the smiLEbot repository (src/server.js).

The repository's single source file contains two revisions of the same
Express server, separated by a document marker:

* v1 (first half): a WhatsApp webhook driving a booking state machine over a
  per-sender in-memory session map, plus a Google OAuth callback that stores
  nothing (the store write is a TODO comment).
* v2 (second half): a stateless webhook with prefix-matched commands, a
  Google OAuth callback that writes exchanged tokens into a per-dentist
  in-memory map, and the same subscription-handshake verification.

Below, the relevant JavaScript is shallowly embedded: strings are Lean
`String`s (lists of characters), JS `Number(...)` string coercion is modelled
by exact fractions (`JsNum`/`Frac`), `undefined` is `Option.none`, and the
express handlers become pure functions from their request data (and the
outcomes of the external collaborators they await) to the state they commit
and the HTTP status they return.
-/

namespace SmileBot

/-! ### JavaScript string primitives -/

/-- The whitespace class trimmed by JS `String.prototype.trim` and by
`Number(string)` (ECMAScript StrWhiteSpace: WhiteSpace ∪ LineTerminator;
the rarely used Unicode Zs space separators beyond NBSP are omitted, none of
which occur in any input considered here). -/
def isWs (c : Char) : Bool :=
  c == ' ' || c == '\t' || c == '\n' || c == '\r' ||
  c == '\x0b' || c == '\x0c' || c == '\u00A0' || c == '\u2028' ||
  c == '\u2029' || c == '\uFEFF'

/-- Trim `isWs` characters from both ends of a character list. -/
def jsTrimList (l : List Char) : List Char :=
  ((l.dropWhile isWs).reverse.dropWhile isWs).reverse

/-- JS `s.trim()`. -/
def jsTrim (s : String) : String := ⟨jsTrimList s.data⟩

/-- JS `s.replace(/\D/g, "")`: keep only the ASCII digits `0-9`. -/
def digitsOnly (s : String) : String := ⟨s.data.filter Char.isDigit⟩

/-- Case-insensitive match of one subject character `c` against a pattern
character `p` (the patterns in the source are lowercase ASCII): JS `/i`
canonicalisation lets `c` match `p` exactly when `c` is `p` itself or its
uppercase form. -/
def ciChar (p c : Char) : Bool := c == p || c == p.toUpper

/-- Anchored case-insensitive regex, `/^pat$/i`: the whole subject matches the
whole pattern. -/
def ciEqList : List Char → List Char → Bool
  | [], [] => true
  | p :: ps, c :: cs => ciChar p c && ciEqList ps cs
  | _, _ => false

/-- Front-anchored case-insensitive regex, `/^pat/i`: the subject starts with
the pattern. -/
def ciStarts : List Char → List Char → Bool
  | [], _ => true
  | _ :: _, [] => false
  | p :: ps, c :: cs => ciChar p c && ciStarts ps cs

/-- v1: `/^cancelar$/i.test(text)`. -/
def reTestCancelar (t : String) : Bool := ciEqList "cancelar".data t.data

/-- v1: `/^agendar$/i.test(text)`. -/
def reTestAgendar (t : String) : Bool := ciEqList "agendar".data t.data

/-- v1: `/^confirmo$/i.test(text)`. -/
def reTestConfirmo (t : String) : Bool := ciEqList "confirmo".data t.data

/-- v2: `/^(conectar|conectar google|link google)/i.test(text)` (the
`conectar google` alternative is subsumed by the `conectar` one). -/
def reTestConectarLoose (t : String) : Bool :=
  ciStarts "conectar".data t.data || ciStarts "conectar google".data t.data ||
    ciStarts "link google".data t.data

/-- v2: `/^agendar/i.test(text)` — a prefix match, unlike v1's anchored one. -/
def reTestAgendarLoose (t : String) : Bool := ciStarts "agendar".data t.data

/-! ### JS `Number(string)` coercion

`Number(text)` on a string trims StrWhiteSpace, maps the empty remainder to
`+0`, accepts `0x`/`0o`/`0b` radix literals (signless), `Infinity` with an
optional sign, and otherwise a signed decimal literal with optional fraction
and exponent; everything else is `NaN`.  Finite values are modelled as exact
unnormalised fractions compared by cross-multiplication (every literal
compared against the small integer slot ids in the source is exact in
binary64, so exact rational comparison agrees with the JS semantics on all
comparisons performed by the program). -/

/-- An exact fraction `num/den`; every fraction built by the parser has a
positive power of ten (or 1) as denominator.  Value equality is by
cross-multiplication, see `jsNumEq`. -/
structure Frac where
  num : Int
  den : Int
deriving DecidableEq

/-- An integer as a fraction. -/
def Frac.ofInt (n : Int) : Frac := ⟨n, 1⟩

/-- Negate a fraction. -/
def Frac.neg (q : Frac) : Frac := ⟨-q.num, q.den⟩

/-- Multiply a fraction by `10 ^ k` for an integer `k` (the exponent part of
a decimal literal). -/
def Frac.mulPow10 (q : Frac) (k : Int) : Frac :=
  if 0 ≤ k then ⟨q.num * 10 ^ k.toNat, q.den⟩ else ⟨q.num, q.den * 10 ^ (-k).toNat⟩

/-- A JS number resulting from string coercion: `NaN`, signed infinity, or an
exact finite value. -/
inductive JsNum where
  | nan
  | posInf
  | negInf
  | val (f : Frac)
deriving DecidableEq

/-- JS `===` on numbers: `NaN` is equal to nothing, finite values compare as
the rational numbers they denote. -/
def jsNumEq : JsNum → JsNum → Bool
  | .val a, .val b => a.num * b.den == b.num * a.den
  | .posInf, .posInf => true
  | .negInf, .negInf => true
  | _, _ => false

/-- Value of a list of decimal digits. -/
def digitsToNat (l : List Char) : Nat :=
  l.foldl (fun a c => a * 10 + (c.toNat - 48)) 0

/-- All characters are ASCII decimal digits. -/
def allDigits (l : List Char) : Bool := l.all Char.isDigit

/-- Split a character list at every `'.'`. -/
def splitOnDot : List Char → List (List Char)
  | [] => [[]]
  | c :: r =>
    let rest := splitOnDot r
    if c == '.' then [] :: rest
    else
      match rest with
      | h :: t => (c :: h) :: t
      | [] => [[c]]

/-- `DecimalDigits . DecimalDigits?` / `. DecimalDigits` / `DecimalDigits`,
without sign or exponent. -/
def parseMantissa (l : List Char) : Option Frac :=
  match splitOnDot l with
  | [d] => if !d.isEmpty && allDigits d then some (Frac.ofInt (digitsToNat d)) else none
  | [d, f] =>
    if (allDigits d && allDigits f) && (!d.isEmpty || !f.isEmpty) then
      some ⟨(digitsToNat d : Int) * 10 ^ f.length + (digitsToNat f : Int), 10 ^ f.length⟩
    else none
  | _ => none

/-- The digits of an `ExponentPart` after the `e`/`E`: optional sign then at
least one digit. -/
def parseExpDigits (l : List Char) : Option Int :=
  match l with
  | '+' :: r => if !r.isEmpty && allDigits r then some (digitsToNat r) else none
  | '-' :: r => if !r.isEmpty && allDigits r then some (-(digitsToNat r : Int)) else none
  | r => if !r.isEmpty && allDigits r then some ((digitsToNat r : Int)) else none

/-- Split at the first `e`/`E` into mantissa part and (when present) the
exponent remainder. -/
def splitExpChars : List Char → List Char × Option (List Char)
  | [] => ([], none)
  | c :: r =>
    if c == 'e' || c == 'E' then ([], some r)
    else
      match splitExpChars r with
      | (m, e) => (c :: m, e)

/-- An unsigned decimal literal body: mantissa with optional exponent. -/
def parseDecBody (l : List Char) : Option Frac :=
  match splitExpChars l with
  | (m, none) => parseMantissa m
  | (m, some e) =>
    match parseMantissa m, parseExpDigits e with
    | some q, some k => some (q.mulPow10 k)
    | _, _ => none

/-- Hexadecimal digit value. -/
def hexVal (c : Char) : Option Nat :=
  if c.isDigit then some (c.toNat - 48)
  else if 'a' ≤ c && c ≤ 'f' then some (c.toNat - 87)
  else if 'A' ≤ c && c ≤ 'F' then some (c.toNat - 55)
  else none

/-- Octal digit value. -/
def octVal (c : Char) : Option Nat :=
  if '0' ≤ c && c ≤ '7' then some (c.toNat - 48) else none

/-- Binary digit value. -/
def binVal (c : Char) : Option Nat :=
  if c == '0' then some 0 else if c == '1' then some 1 else none

/-- Value of a nonempty run of digits in the given base. -/
def parseRadixDigits (base : Nat) (dv : Char → Option Nat) (l : List Char) : Option Nat :=
  if l.isEmpty then none
  else
    l.foldl
      (fun acc c =>
        match acc, dv c with
        | some a, some d => some (a * base + d)
        | _, _ => none)
      (some 0)

/-- Signless decimal body with `Infinity` and sign resolution. -/
def parseUnsignedDec (neg : Bool) (l : List Char) : JsNum :=
  if l = "Infinity".data then (if neg then .negInf else .posInf)
  else
    match parseDecBody l with
    | some q => .val (if neg then q.neg else q)
    | none => .nan

/-- `StrDecimalLiteral`: optional sign then unsigned body. -/
def parseSignedDec (l : List Char) : JsNum :=
  match l with
  | [] => parseUnsignedDec false []
  | c :: r =>
    if c == '+' then parseUnsignedDec false r
    else if c == '-' then parseUnsignedDec true r
    else parseUnsignedDec false (c :: r)

/-- `Number(string)` on an already trimmed character list. -/
def jsStringToNumberCore (l : List Char) : JsNum :=
  match l with
  | [] => .val (Frac.ofInt 0)
  | c :: rest =>
    if c == '0' then
      match rest with
      | [] => parseSignedDec (c :: rest)
      | x :: r2 =>
        if x == 'x' || x == 'X' then
          match parseRadixDigits 16 hexVal r2 with
          | some n => .val (Frac.ofInt n)
          | none => .nan
        else if x == 'o' || x == 'O' then
          match parseRadixDigits 8 octVal r2 with
          | some n => .val (Frac.ofInt n)
          | none => .nan
        else if x == 'b' || x == 'B' then
          match parseRadixDigits 2 binVal r2 with
          | some n => .val (Frac.ofInt n)
          | none => .nan
        else parseSignedDec (c :: rest)
    else parseSignedDec (c :: rest)

/-- JS `Number(text)` for a string. -/
def jsStringToNumber (s : String) : JsNum :=
  jsStringToNumberCore (jsTrimList s.data)

/-! ### Data model (v1 booking machine) -/

/-- The `session.step` strings of v1. -/
inductive Step where
  | idle
  | get_name
  | get_phone
  | offer_slots
  | confirm
deriving DecidableEq

/-- The loose `session.data` bag: each field is absent until the
corresponding step writes it. -/
structure SessionData where
  name : Option String
  phone : Option String
  slot : Option String
deriving DecidableEq

/-- `{}` — the empty data bag. -/
def emptyData : SessionData := ⟨none, none, none⟩

/-- One per-sender session record: `{ step, data }`. -/
structure Session where
  step : Step
  data : SessionData
deriving DecidableEq

/-- `{ step: "idle", data: {} }`. -/
def freshSession : Session := ⟨Step.idle, emptyData⟩

/-- One catalog slot `{ id, when }`. -/
structure Slot where
  id : Int
  when : String
deriving DecidableEq

/-- The static `SLOTS` catalog of v1. -/
def SLOTS : List Slot :=
  [⟨1, "Hoje 16:00"⟩, ⟨2, "Amanhã 10:30"⟩, ⟨3, "Amanhã 15:00"⟩]

/-- JS template interpolation of a possibly-undefined string. -/
def jsInterp : Option String → String
  | some s => s
  | none => "undefined"

/-- JS `a || b` for a possibly-undefined string `a` (the empty string is
falsy). -/
def jsOrStr (o : Option String) (d : String) : String :=
  match o with
  | some s => if s == "" then d else s
  | none => d

/-- `if (DENTIST) await sendText(DENTIST, body)`: the notification to the
configured recipient, skipped when the env var is unset or empty (falsy). -/
def dentistNote (dentist : Option String) (body : String) : List (String × String) :=
  match dentist with
  | some d => if d == "" then [] else [(d, body)]
  | none => []

/-! The outbound message texts of v1, verbatim. -/

def cancelReplyMsg : String :=
  "Sem problemas! Consulta cancelada. Se precisar, digite *agendar* novamente."

def cancelAlertMsg (who : String) : String :=
  "⚠️ Paciente " ++ who ++ " cancelou a consulta."

def askNameMsg : String :=
  "Vamos agendar sua consulta 🦷\nQual é o seu *nome completo*?"

def askPhoneMsg : String :=
  "Pra continuar, me informe seu *telefone* (com DDD)."

def slotListText : String :=
  String.intercalate "\n" (SLOTS.map (fun s => toString s.id ++ ") " ++ s.when))

def offerMsg (name : String) : String :=
  "Obrigado, " ++ name ++ "! Temos estes horários:\n" ++ slotListText ++
    "\n\nResponda com *1*, *2* ou *3*."

def badSlotMsg : String :=
  "Não entendi. Responda *1*, *2* ou *3* para escolher um horário."

def confirmPromptMsg (whenLabel : String) : String :=
  "Confirmar consulta para *" ++ whenLabel ++ "*?\nResponda *confirmo* ou *cancelar*."

def successMsg (slotLabel : String) : String :=
  "✅ Consulta confirmada para *" ++ slotLabel ++ "*.\nAté lá!"

def bookingNotice (name phone slotLabel : String) : String :=
  "📬 Nova consulta confirmada:\nPaciente: " ++ name ++ "\nTelefone: " ++ phone ++
    "\nHorário: " ++ slotLabel

def fallbackMsg : String :=
  "Não entendi. Digite *agendar* para começar ou *cancelar* para encerrar."

/-- The v1 booking state machine, lines 57-128 of the first revision: given
the configured notification recipient, the sender, the sender's current
session and the raw message body, produce the session committed back to the
map and the ordered outbound messages `(recipient, body)`.  The branch order
mirrors the source exactly: cancel, schedule-or-idle, get_name, get_phone,
offer_slots, confirm, fallback. -/
def processMessage (dentist : Option String) (sender : String) (session : Session)
    (rawText : String) : Session × List (String × String) :=
  let text := jsTrim rawText
  if reTestCancelar text then
    (freshSession,
      (sender, cancelReplyMsg) ::
        dentistNote dentist (cancelAlertMsg (jsOrStr session.data.name sender)))
  else if reTestAgendar text || session.step == Step.idle then
    ({ session with step := Step.get_name }, [(sender, askNameMsg)])
  else if session.step == Step.get_name then
    ({ step := Step.get_phone, data := { session.data with name := some text } },
      [(sender, askPhoneMsg)])
  else if session.step == Step.get_phone then
    ({ step := Step.offer_slots, data := { session.data with phone := some (digitsOnly text) } },
      [(sender, offerMsg (jsInterp session.data.name))])
  else if session.step == Step.offer_slots then
    match SLOTS.find? (fun s => jsNumEq (JsNum.val (Frac.ofInt s.id)) (jsStringToNumber text)) with
    | none => (session, [(sender, badSlotMsg)])
    | some slot =>
      ({ step := Step.confirm, data := { session.data with slot := some slot.when } },
        [(sender, confirmPromptMsg slot.when)])
  else if session.step == Step.confirm && reTestConfirmo text then
    (freshSession,
      (sender, successMsg (jsInterp session.data.slot)) ::
        dentistNote dentist
          (bookingNotice (jsInterp session.data.name) (jsInterp session.data.phone)
            (jsInterp session.data.slot)))
  else
    (session, [(sender, fallbackMsg)])

/-- Run a sequence of inbound messages from one sender against the machine,
starting from the lazily created fresh session (v1 lines 60-63). -/
def runMessages (dentist : Option String) (sender : String) (msgs : List String) : Session :=
  msgs.foldl (fun sess t => (processMessage dentist sender sess t).1) freshSession

/-! ### Webhook endpoints -/

/-- Outcome of `app.get("/webhook")`: echo the challenge with status 200, or
`res.sendStatus(403)`. -/
inductive VerifyOutcome where
  | ok (challenge : Option String)
  | forbidden
deriving DecidableEq

/-- The subscription-handshake verification, identical in v1 (lines 39-47)
and v2 (lines 364-380): query parameters and the configured secret are
possibly-undefined strings, compared with JS `===` (under which two
`undefined`s are equal — `Option.none = Option.none`). -/
def verifyWebhook (secret mode token challenge : Option String) : VerifyOutcome :=
  if mode == some "subscribe" && token == secret then .ok challenge else .forbidden

/-- An inbound message as the webhook extracts it from the payload:
`msg.from` and the possibly-absent `msg.text?.body`. -/
structure InboundMsg where
  sender : String
  body : Option String
deriving DecidableEq

/-- The v1 `POST /webhook` handler around the state machine: takes the
current sessions map (`none` = key absent), the extracted message (`none` =
no message in the payload), and the success/failure outcomes of the awaited
message deliveries.  `sendText` (v1 lines 16-27) catches its own errors and
never rethrows, so delivery outcomes influence neither the committed session
nor the response; the handler ends every path, including its `catch`
(lines 129-132), with `res.sendStatus(200)`. -/
def webhookPost_v1 (dentist : Option String) (store : String → Option Session)
    (msg : Option InboundMsg) (deliveryOutcomes : List Bool) :
    (String → Option Session) × Nat :=
  let _ := deliveryOutcomes
  match msg with
  | none => (store, 200)
  | some m =>
    let sess := match store m.sender with | some s => s | none => freshSession
    let sess2 := (processMessage dentist m.sender sess (m.body.getD "")).1
    (fun k => if k = m.sender then some sess2 else store k, 200)

/-- The reply branch taken by the v2 `POST /webhook` handler. -/
inductive V2Reply where
  | connectLink
  | scheduleReply
  | defaultReply
deriving DecidableEq

/-- Result of the `new URL(...)` construction in v2's connect branch: it
throws (e.g. on a malformed Host header), or yields a URL. -/
inductive UrlBuild where
  | ok (url : String)
  | failed
deriving DecidableEq

/-- The v2 `POST /webhook` handler (lines 385-433): stateless; prefix-matched
commands; any exception thrown inside the body reaches the `catch`, which
responds `res.sendStatus(500)`.  The only throw site in the body is the URL
construction of the connect branch (`sendText` swallows its own failures, so
`deliveryOutcomes` cannot reach the catch).  Returns the HTTP status and the
branch taken (`none` when no reply was sent). -/
def webhookPost_v2 (msg : Option InboundMsg) (urlBuild : UrlBuild)
    (deliveryOutcomes : List Bool) : Nat × Option V2Reply :=
  let _ := deliveryOutcomes
  match msg with
  | none => (200, none)
  | some m =>
    let text := jsTrim (m.body.getD "")
    if reTestConectarLoose text then
      match urlBuild with
      | .failed => (500, none)
      | .ok _ => (200, some .connectLink)
    else if reTestAgendarLoose text then (200, some .scheduleReply)
    else (200, some .defaultReply)

/-! ### Credential store and OAuth callback (v2) -/

/-- The token payload returned by the exchange and stored verbatim
(`googleTokensStore.set(dentistId, tokens)`). -/
structure Tokens where
  access_token : Option String
  refresh_token : Option String
  expiry_date : Option Int
deriving DecidableEq

/-- Outcome of the awaited `oauth2Client.getToken(...)` exchange. -/
inductive ExchangeOutcome where
  | ok (tokens : Tokens)
  | failed
deriving DecidableEq

/-- `googleTokensStore`: one record per dentist id. -/
def CredStore : Type := String → Option Tokens

/-- `Map.prototype.set`: unconditional overwrite for one key. -/
def storePut (k : String) (v : Tokens) (m : CredStore) : CredStore :=
  fun k2 => if k2 = k then some v else m k2

/-- Characters of the JSON key prefix produced by `/google/auth`
(`JSON.stringify({ dentistId })`). -/
def dentistKeyChars : List Char := "\x7b\"dentistId\":\"".data

/-- Drop an exact expected sequence from the front, or fail. -/
def dropExact : List Char → List Char → Option (List Char)
  | [], l => some l
  | _ :: _, [] => none
  | p :: ps, c :: cs => if c = p then dropExact ps cs else none

/-- The callback's dentist-id extraction (v2 lines 316-324):
`JSON.parse(state)?.dentistId` with every failure falling back to
`"default"`.  `JSON.parse` is modelled for states of the exact shape the
auth route produces — `\x7b"dentistId":"<id>"\x7d` with no escapes in the
id — anything else takes the `"default"` fallback, as the source's
`catch`/optional chain does. -/
def parseDentistId (state : Option String) : String :=
  match state with
  | none => "default"
  | some s =>
    match dropExact dentistKeyChars s.data with
    | none => "default"
    | some rest =>
      match rest.reverse with
      | '\x7d' :: '"' :: ridRev =>
        let idChars := ridRev.reverse
        if idChars.all (fun c => c ≠ '"' && c ≠ '\\') then ⟨idChars⟩ else "default"
      | _ => "default"

/-- The v2 `GET /google/callback` handler (lines 309-358): missing code →
400 and no write; failed exchange → 500 and no write; successful exchange →
the tokens are stored for the parsed dentist id (overwriting any prior
record) and the subsequent validation listing decides only the HTTP status
(500 on its failure, 200 otherwise) — the store write has already
happened. -/
def googleCallback (store : CredStore) (code : Option String) (state : Option String)
    (exchange : ExchangeOutcome) (listingOk : Bool) : CredStore × Nat :=
  match code with
  | none => (store, 400)
  | some _ =>
    let dentistId := parseDentistId state
    match exchange with
    | .failed => (store, 500)
    | .ok tokens =>
      let store2 := storePut dentistId tokens store
      if listingOk then (store2, 200) else (store2, 500)

/-! ### The reachable-session invariant -/

/-- The step-gated part of the data that actually holds on every reachable
session: `idle` sessions are empty, and every step beyond a collection step
has that step's datum (the converse of the spec's gating direction, which
fails — see the C1 theorems). -/
def SessionInv (s : Session) : Prop :=
  (s.step = Step.idle → s.data = emptyData)
  ∧ (s.step = Step.get_phone → s.data.name ≠ none)
  ∧ (s.step = Step.offer_slots → s.data.name ≠ none ∧ s.data.phone ≠ none)
  ∧ (s.step = Step.confirm → s.data.name ≠ none ∧ s.data.phone ≠ none ∧ s.data.slot ≠ none)

/-! ### Helper lemmas -/

lemma ciChar_elim {p c : Char} (h : ciChar p c = true) : c = p ∨ c = p.toUpper := by
  simpa [ciChar] using h

lemma ciEqList_length : ∀ ps cs : List Char, ciEqList ps cs = true → cs.length = ps.length := by
  intro ps
  induction ps with
  | nil =>
    intro cs h
    cases cs with
    | nil => rfl
    | cons c cs2 => simp [ciEqList] at h
  | cons p ps ih =>
    intro cs h
    cases cs with
    | nil => simp [ciEqList] at h
    | cons c cs2 =>
      simp only [ciEqList, Bool.and_eq_true] at h
      simp [ih cs2 h.2]

lemma ciEqList_mem : ∀ ps cs : List Char, ciEqList ps cs = true →
    ∀ c ∈ cs, ∃ p ∈ ps, c = p ∨ c = p.toUpper := by
  intro ps
  induction ps with
  | nil =>
    intro cs h c hc
    cases cs with
    | nil => simp at hc
    | cons c2 cs2 => simp [ciEqList] at h
  | cons p ps ih =>
    intro cs h c hc
    cases cs with
    | nil => simp at hc
    | cons c2 cs2 =>
      simp only [ciEqList, Bool.and_eq_true] at h
      rcases List.mem_cons.mp hc with rfl | hmem
      · exact ⟨p, List.mem_cons_self p ps, ciChar_elim h.1⟩
      · obtain ⟨p2, hp2, hcp⟩ := ih cs2 h.2 c hmem
        exact ⟨p2, List.mem_cons_of_mem p hp2, hcp⟩

lemma dropWhile_isWs_id (l : List Char) (h : ∀ c ∈ l, isWs c = false) :
    l.dropWhile isWs = l := by
  cases l with
  | nil => rfl
  | cons a as => simp [List.dropWhile_cons, h a (List.mem_cons_self a as)]

lemma jsTrimList_id (l : List Char) (h : ∀ c ∈ l, isWs c = false) :
    jsTrimList l = l := by
  unfold jsTrimList
  rw [dropWhile_isWs_id l h,
    dropWhile_isWs_id l.reverse (fun c hc => h c (List.mem_reverse.mp hc)),
    List.reverse_reverse]

lemma splitOnDot_ne_nil (l : List Char) : splitOnDot l ≠ [] := by
  cases l with
  | nil => simp [splitOnDot]
  | cons c r =>
    unfold splitOnDot
    dsimp only
    split
    · simp
    · split <;> simp

lemma parseMantissa_head_nan (c : Char) (l2 : List Char)
    (hd : c.isDigit = false) (hdot : c ≠ '.') :
    parseMantissa (c :: l2) = none := by
  have hcd : (c == '.') = false := by simp [hdot]
  obtain ⟨h, t, hst⟩ : ∃ h t, splitOnDot (c :: l2) = (c :: h) :: t := by
    unfold splitOnDot
    dsimp only
    rw [hcd]
    cases hrec : splitOnDot l2 with
    | nil => exact absurd hrec (splitOnDot_ne_nil l2)
    | cons h t => exact ⟨h, t, by simp⟩
  have hall : allDigits (c :: h) = false := by simp [allDigits, hd]
  unfold parseMantissa
  rw [hst]
  cases t with
  | nil => simp [hall]
  | cons f t2 =>
    cases t2 with
    | nil => simp [hall]
    | cons g t3 => rfl

lemma parseDecBody_head_nan (c : Char) (r : List Char)
    (hd : c.isDigit = false) (hdot : c ≠ '.') (he : c ≠ 'e') (hE : c ≠ 'E') :
    parseDecBody (c :: r) = none := by
  have hb : (c == 'e' || c == 'E') = false := by simp [he, hE]
  unfold parseDecBody splitExpChars
  rw [hb]
  dsimp only
  rcases hsp : splitExpChars r with ⟨m, e⟩
  cases e with
  | none => simp [parseMantissa_head_nan c m hd hdot]
  | some ex => simp [parseMantissa_head_nan c m hd hdot]

lemma jsCore_head_nan (c : Char) (r : List Char)
    (hd : c.isDigit = false) (hplus : c ≠ '+') (hminus : c ≠ '-') (hdot : c ≠ '.')
    (hI : c ≠ 'I') (he : c ≠ 'e') (hE : c ≠ 'E') :
    jsStringToNumberCore (c :: r) = .nan := by
  have h0 : c ≠ '0' := by
    intro hh
    rw [hh] at hd
    simp at hd
  simp only [jsStringToNumberCore]
  rw [show (c == '0') = false by simp [h0]]
  simp only [Bool.false_eq_true, if_false]
  simp only [parseSignedDec]
  rw [show (c == '+') = false by simp [hplus], show (c == '-') = false by simp [hminus]]
  simp only [Bool.false_eq_true, if_false]
  unfold parseUnsignedDec
  rw [if_neg, parseDecBody_head_nan c r hd hdot he hE]
  intro hcontra
  have hinf : "Infinity".data = 'I' :: "nfinity".data := rfl
  rw [hinf] at hcontra
  injection hcontra with h1 h2
  exact hI h1

lemma jsStringToNumber_nan_of_cancelar (u : String) (h : reTestCancelar u = true) :
    jsStringToNumber u = .nan := by
  unfold reTestCancelar at h
  have hmem := ciEqList_mem "cancelar".data u.data h
  have hfacts : ∀ p2 ∈ "cancelar".data, isWs p2 = false ∧ isWs p2.toUpper = false := by decide
  have hnw : ∀ c ∈ u.data, isWs c = false := by
    intro c hc
    obtain ⟨p, hp, hcp⟩ := hmem c hc
    cases hcp with
    | inl h1 => rw [h1]; exact (hfacts p hp).1
    | inr h1 => rw [h1]; exact (hfacts p hp).2
  cases hu : u.data with
  | nil =>
    rw [show "cancelar".data = 'c' :: "ancelar".data from rfl, hu] at h
    simp [ciEqList] at h
  | cons c cs =>
    rw [show "cancelar".data = 'c' :: "ancelar".data from rfl, hu] at h
    simp only [ciEqList, Bool.and_eq_true] at h
    have hc : c = 'c' ∨ c = 'C' := by
      have := ciChar_elim h.1
      simpa using this
    unfold jsStringToNumber
    rw [hu, jsTrimList_id (c :: cs) (hu ▸ hnw)]
    rcases hc with rfl | rfl
    · exact jsCore_head_nan 'c' cs (by decide) (by decide) (by decide) (by decide)
        (by decide) (by decide) (by decide)
    · exact jsCore_head_nan 'C' cs (by decide) (by decide) (by decide) (by decide)
        (by decide) (by decide) (by decide)

lemma jsStringToNumber_nan_of_agendar (u : String) (h : reTestAgendar u = true) :
    jsStringToNumber u = .nan := by
  unfold reTestAgendar at h
  have hmem := ciEqList_mem "agendar".data u.data h
  have hfacts : ∀ p2 ∈ "agendar".data, isWs p2 = false ∧ isWs p2.toUpper = false := by decide
  have hnw : ∀ c ∈ u.data, isWs c = false := by
    intro c hc
    obtain ⟨p, hp, hcp⟩ := hmem c hc
    cases hcp with
    | inl h1 => rw [h1]; exact (hfacts p hp).1
    | inr h1 => rw [h1]; exact (hfacts p hp).2
  cases hu : u.data with
  | nil =>
    rw [show "agendar".data = 'a' :: "gendar".data from rfl, hu] at h
    simp [ciEqList] at h
  | cons c cs =>
    rw [show "agendar".data = 'a' :: "gendar".data from rfl, hu] at h
    simp only [ciEqList, Bool.and_eq_true] at h
    have hc : c = 'a' ∨ c = 'A' := by
      have := ciChar_elim h.1
      simpa using this
    unfold jsStringToNumber
    rw [hu, jsTrimList_id (c :: cs) (hu ▸ hnw)]
    rcases hc with rfl | rfl
    · exact jsCore_head_nan 'a' cs (by decide) (by decide) (by decide) (by decide)
        (by decide) (by decide) (by decide)
    · exact jsCore_head_nan 'A' cs (by decide) (by decide) (by decide) (by decide)
        (by decide) (by decide) (by decide)

lemma reTestCancelar_false_of_agendar (u : String) (h : reTestAgendar u = true) :
    reTestCancelar u = false := by
  by_contra hc
  rw [Bool.not_eq_false] at hc
  have h1 := ciEqList_length "agendar".data u.data h
  have h2 := ciEqList_length "cancelar".data u.data hc
  rw [h1] at h2
  simp at h2

/-- One machine transition preserves the reachable-session invariant. -/
lemma processMessage_inv (dentist : Option String) (sender rawText : String) (s : Session)
    (h : SessionInv s) : SessionInv (processMessage dentist sender s rawText).1 := by
  obtain ⟨h1, h2, h3, h4⟩ := h
  unfold processMessage
  dsimp only
  split
  · simp [SessionInv, freshSession, emptyData]
  · split
    · simp [SessionInv]
    · split
      · simp [SessionInv]
      · split
        · rename_i hphone
          have hstep : s.step = Step.get_phone := by simpa using hphone
          simp [SessionInv, h2 hstep]
        · split
          · rename_i hoffer
            have hstep : s.step = Step.offer_slots := by simpa using hoffer
            split
            · exact ⟨h1, h2, h3, h4⟩
            · simp [SessionInv, (h3 hstep).1, (h3 hstep).2]
          · split
            · simp [SessionInv, freshSession, emptyData]
            · exact ⟨h1, h2, h3, h4⟩

/-- Folding the machine over a message list preserves the invariant. -/
lemma runMessages_inv_aux (dentist : Option String) (sender : String) :
    ∀ (msgs : List String) (s : Session), SessionInv s →
      SessionInv (msgs.foldl (fun sess t => (processMessage dentist sender sess t).1) s) := by
  intro msgs
  induction msgs with
  | nil => intro s h; exact h
  | cons m rest ih =>
    intro s h
    exact ih _ (processMessage_inv dentist sender m s h)

/-- C1, counterexample: the claimed step-gating invariant fails on a reachable
session.  From a fresh idle session, the run "oi", "Maria", "123", "agendar"
ends with `step = get_name` (the schedule-command restart) while
`data.phone = "123"` is still set, although `step` has not passed `get_phone`
in the restarted flow — rule 2 resets the step but keeps the collected
data. -/
theorem C1_counterexample :
    (runMessages (some "5511888") "5511999" ["oi", "Maria", "123", "agendar"]).step =
        Step.get_name ∧
    (runMessages (some "5511888") "5511999" ["oi", "Maria", "123", "agendar"]).data.phone =
        some "123" := by
  constructor <;> rfl

/-- C1, amended: every session reachable from a fresh idle session satisfies
the surviving invariant: an `idle` session has empty data, and each step
beyond a collection step has that step's datum (`get_phone` has the name,
`offer_slots` has name and phone, `confirm` has name, phone and slot).  The
spec's converse gating — phone set only after passing `get_phone`, slot only
after passing `offer_slots` — does not survive a mid-flow schedule restart,
which keeps the collected data (see the counterexample). -/
theorem C1_invariant_amended (dentist : Option String) (sender : String) (msgs : List String) :
    SessionInv (runMessages dentist sender msgs) :=
  runMessages_inv_aux dentist sender msgs freshSession
    (by simp [SessionInv, freshSession, emptyData])

/-- Closed instance of the amended C1 invariant on a concrete run. -/
theorem C1_invariant_amended_witness :
    SessionInv (runMessages (some "5511888") "5511999" ["oi", "Maria", "123", "agendar"]) :=
  C1_invariant_amended (some "5511888") "5511999" ["oi", "Maria", "123", "agendar"]

/-- C2, counterexample: at step `get_name` the inbound text "agendar" is not
stored as the name and the step does not advance to `get_phone`; instead
rule 2's literal-word match consumes it first and re-issues the name
prompt. -/
theorem C2_counterexample :
    processMessage (some "5511888") "u" ⟨Step.get_name, emptyData⟩ "agendar" =
      (⟨Step.get_name, emptyData⟩, [("u", askNameMsg)]) := by
  rfl

/-- C2, amended: the schedule command is consumed by rule 2 at every step,
not by the step-specific rules 3-6: whenever the trimmed text equals
`agendar` case-insensitively, the machine sets step to `get_name`, leaves the
collected data untouched, and emits the name prompt — regardless of the
current step and data. -/
theorem C2_schedule_precedence (dentist : Option String) (sender : String) (sess : Session)
    (t : String) (h : reTestAgendar (jsTrim t) = true) :
    processMessage dentist sender sess t =
      ({ sess with step := Step.get_name }, [(sender, askNameMsg)]) := by
  have hc := reTestCancelar_false_of_agendar (jsTrim t) h
  simp only [processMessage, hc, h, Bool.false_eq_true, if_false, Bool.true_or, if_true]

/-- Closed instance of amended C2: an uppercase schedule command sent at
`offer_slots` restarts the flow and keeps the data. -/
theorem C2_schedule_precedence_witness :
    processMessage (some "D") "u" ⟨Step.offer_slots, ⟨some "Maria", some "11", none⟩⟩ "AGENDAR" =
      (⟨Step.get_name, ⟨some "Maria", some "11", none⟩⟩, [("u", askNameMsg)]) :=
  C2_schedule_precedence (some "D") "u" ⟨Step.offer_slots, ⟨some "Maria", some "11", none⟩⟩
    "AGENDAR" (by decide)

/-- C3, counterexample: with no secret configured (`META_VERIFY_TOKEN`
undefined) a caller that supplies `hub.mode=subscribe` and omits
`hub.verify_token` is accepted and has its challenge echoed — JS `===`
compares `undefined` with `undefined` as equal — so verification does not
fail closed when the secret is absent. -/
theorem C3_counterexample :
    verifyWebhook none (some "subscribe") none (some "challenge123") =
      VerifyOutcome.ok (some "challenge123") := rfl

/-- C3, amended: verification echoes the challenge iff the mode parameter is
`subscribe` and the caller-supplied token is JS-strictly equal to the
configured secret, where two absent values compare equal; every other
request is rejected with 403.  The outcome is a pure function of the request
and configuration, so repeating a request yields the same outcome, and an
invalid token is always rejected; but an absent secret together with an
absent token is accepted (fails open), contrary to the claim. -/
theorem C3_verification (secret mode token challenge : Option String) :
    (verifyWebhook secret mode token challenge = VerifyOutcome.ok challenge ↔
      (mode = some "subscribe" ∧ token = secret)) ∧
    (verifyWebhook secret mode token challenge = VerifyOutcome.ok challenge ∨
      verifyWebhook secret mode token challenge = VerifyOutcome.forbidden) := by
  by_cases h1 : mode = some "subscribe" <;> by_cases h2 : token = secret <;>
    simp [verifyWebhook, h1, h2]

/-- Closed instance of amended C3: a matching configured secret is
accepted and the challenge echoed. -/
theorem C3_verification_witness :
    verifyWebhook (some "tok") (some "subscribe") (some "tok") (some "ch") =
      VerifyOutcome.ok (some "ch") :=
  (C3_verification (some "tok") (some "subscribe") (some "tok") (some "ch")).1.mpr ⟨rfl, rfl⟩

/-- C4: a credential record is written exactly by a completed exchange.
After a successful exchange the store holds the new record under the parsed
entity id; a second successful exchange for the same entity overwrites it
entirely (last-write-wins); a failed exchange, or a callback without a code,
leaves the store unchanged — all irrespective of the post-write validation
listing's outcome. -/
theorem C4_credential_store (store : CredStore) (c : String) (state : Option String)
    (t t2 : Tokens) (listing listing2 : Bool) (ex : ExchangeOutcome) :
    ((googleCallback store (some c) state (.ok t) listing).1 (parseDentistId state) = some t) ∧
    ((googleCallback ((googleCallback store (some c) state (.ok t) listing).1)
        (some c) state (.ok t2) listing2).1 (parseDentistId state) = some t2) ∧
    ((googleCallback store (some c) state .failed listing).1 = store) ∧
    ((googleCallback store none state ex listing).1 = store) := by
  unfold googleCallback storePut
  cases listing <;> cases listing2 <;> cases ex <;> simp

/-- Closed instance of C4 at concrete tokens and entity id. -/
theorem C4_credential_store_witness :
    ((googleCallback (fun _ => none) (some "code1") none
        (.ok ⟨some "at", some "rt", some 7⟩) true).1 "default" =
      some ⟨some "at", some "rt", some 7⟩) :=
  (C4_credential_store (fun _ => none) "code1" none ⟨some "at", some "rt", some 7⟩
    ⟨some "at2", none, some 9⟩ true true .failed).1

/-- C5: an inbound message equal (case-insensitively, after trimming) to the
cancel command, at any step and with any collected data, resets the session
to idle with empty data, emits the cancellation confirmation to the sender
and, when a notification recipient is configured (set and nonempty), a
cancellation alert naming the stored name — or the sender id when no
(nonempty) name was collected, matching the source's falsy-or. -/
theorem C5_cancel_resets (dentist : Option String) (sender : String) (sess : Session)
    (t : String) (h : reTestCancelar (jsTrim t) = true) :
    processMessage dentist sender sess t =
      (freshSession,
        (sender, cancelReplyMsg) ::
          dentistNote dentist (cancelAlertMsg (jsOrStr sess.data.name sender))) := by
  simp only [processMessage, h, if_true]

/-- Closed instance of C5: a padded uppercase cancel command at `confirm`
with full data resets the session and notifies both parties. -/
theorem C5_cancel_resets_witness :
    processMessage (some "5511888") "5511999"
        ⟨Step.confirm, ⟨some "Maria", some "11912345678", some "Amanhã 10:30"⟩⟩ "  CANCELAR " =
      (freshSession,
        [("5511999", cancelReplyMsg), ("5511888", cancelAlertMsg "Maria")]) :=
  (C5_cancel_resets (some "5511888") "5511999"
    ⟨Step.confirm, ⟨some "Maria", some "11912345678", some "Amanhã 10:30"⟩⟩ "  CANCELAR "
    (by decide)).trans (by decide)

/-- C6, counterexample: at `offer_slots` the text "agendar" does not parse as
a number (`Number("agendar")` is NaN), yet it does not leave the step at
`offer_slots` with a corrective prompt — rule 2 consumes it first and moves
the step to `get_name` with the name prompt. -/
theorem C6_counterexample :
    jsStringToNumber "agendar" = JsNum.nan ∧
    processMessage (some "5511888") "u" ⟨Step.offer_slots, ⟨some "Maria", some "11", none⟩⟩
        "agendar" =
      (⟨Step.get_name, ⟨some "Maria", some "11", none⟩⟩, [("u", askNameMsg)]) := by
  constructor <;> rfl

/-- C6, amended: at `offer_slots`, an inbound message that is not the cancel
or schedule command and whose coerced number matches no catalog id leaves the
step at `offer_slots` and the data completely unchanged, emitting only the
corrective prompt — malformed input is a normal branch, never an error. -/
theorem C6_invalid_slot (dentist : Option String) (sender : String) (sess : Session) (t : String)
    (hstep : sess.step = Step.offer_slots)
    (hc : reTestCancelar (jsTrim t) = false)
    (ha : reTestAgendar (jsTrim t) = false)
    (hfind : SLOTS.find?
        (fun s => jsNumEq (JsNum.val (Frac.ofInt s.id)) (jsStringToNumber (jsTrim t))) = none) :
    processMessage dentist sender sess t = (sess, [(sender, badSlotMsg)]) := by
  simp [processMessage, hc, ha, hstep, hfind]

/-- Closed instance of amended C6: the out-of-catalog id "99" is rejected
with the corrective prompt and no session change. -/
theorem C6_invalid_slot_witness :
    processMessage (some "D") "u" ⟨Step.offer_slots, ⟨some "Maria", some "11", none⟩⟩ "99" =
      (⟨Step.offer_slots, ⟨some "Maria", some "11", none⟩⟩, [("u", badSlotMsg)]) :=
  C6_invalid_slot (some "D") "u" ⟨Step.offer_slots, ⟨some "Maria", some "11", none⟩⟩ "99"
    rfl (by decide) (by decide) (by decide)

/-- C7, counterexample: in v2 the schedule trigger is the prefix regex
`/^agendar/i`, so the trimmed text "agendarXYZ" — which merely begins with
the command word — does trigger the schedule reply, contradicting the
exact-equality claim. -/
theorem C7_counterexample :
    webhookPost_v2 (some ⟨"u", some "agendarXYZ"⟩) (UrlBuild.ok "https://h/google/auth") [] =
      (200, some V2Reply.scheduleReply) := rfl

/-- C7, amended: matching is case-insensitive on trimmed text in both
revisions, but only v1 anchors its cancel/schedule/confirm regexes at both
ends: in v1, "agendarXYZ" triggers no command rule (at `confirm` it falls
through to the fallback prompt), while in v2 any text whose trimmed form
begins case-insensitively with `agendar` (and not with a connect trigger)
takes the schedule branch. -/
theorem C7_matching (t : String) (sess : Session) :
    (reTestConectarLoose (jsTrim t) = false → reTestAgendarLoose (jsTrim t) = true →
      ∀ (u url : String) (ds : List Bool),
        webhookPost_v2 (some ⟨u, some t⟩) (UrlBuild.ok url) ds =
          (200, some V2Reply.scheduleReply)) ∧
    (sess.step = Step.confirm →
      processMessage none "u" sess "agendarXYZ" = (sess, [("u", fallbackMsg)])) := by
  constructor
  · intro h1 h2 u url ds
    simp [webhookPost_v2, h1, h2]
  · intro hstep
    simp [processMessage, hstep,
      show reTestCancelar (jsTrim "agendarXYZ") = false from by decide,
      show reTestAgendar (jsTrim "agendarXYZ") = false from by decide,
      show reTestConfirmo (jsTrim "agendarXYZ") = false from by decide]

/-- Closed instance of amended C7 on "agendarXYZ" in both revisions. -/
theorem C7_matching_witness :
    webhookPost_v2 (some ⟨"u", some "agendarXYZ"⟩) (UrlBuild.ok "https://h") [] =
        (200, some V2Reply.scheduleReply) ∧
    processMessage none "u" ⟨Step.confirm, ⟨some "n", some "p", some "s"⟩⟩ "agendarXYZ" =
      (⟨Step.confirm, ⟨some "n", some "p", some "s"⟩⟩, [("u", fallbackMsg)]) :=
  ⟨(C7_matching "agendarXYZ" ⟨Step.confirm, ⟨some "n", some "p", some "s"⟩⟩).1
      (by decide) (by decide) "u" "https://h" [],
    (C7_matching "agendarXYZ" ⟨Step.confirm, ⟨some "n", some "p", some "s"⟩⟩).2 rfl⟩

/-- C8, counterexample: at `get_phone` the inbound text "agendar" is not
stored digit-stripped as the phone with step `offer_slots`; rule 2 consumes
it first, restarting the flow at `get_name` with the phone unset. -/
theorem C8_counterexample :
    processMessage (some "D") "u" ⟨Step.get_phone, ⟨some "Maria", none, none⟩⟩ "agendar" =
      (⟨Step.get_name, ⟨some "Maria", none, none⟩⟩, [("u", askNameMsg)]) := rfl

/-- C8, amended: at `get_phone`, every inbound text other than the cancel
and schedule commands is stored as `data.phone` with all non-digit
characters removed, and the step advances to `offer_slots` with the slot
catalog emitted. -/
theorem C8_phone_strip (dentist : Option String) (sender : String) (sess : Session) (t : String)
    (hstep : sess.step = Step.get_phone)
    (hc : reTestCancelar (jsTrim t) = false)
    (ha : reTestAgendar (jsTrim t) = false) :
    processMessage dentist sender sess t =
      ({ step := Step.offer_slots,
          data := { sess.data with phone := some (digitsOnly (jsTrim t)) } },
        [(sender, offerMsg (jsInterp sess.data.name))]) := by
  simp [processMessage, hc, ha, hstep]

/-- Closed instance of amended C8: the claim's example input
"(11) 91234-5678" stores phone "11912345678". -/
theorem C8_phone_strip_witness :
    processMessage (some "D") "u" ⟨Step.get_phone, ⟨some "Maria", none, none⟩⟩
        "(11) 91234-5678" =
      (⟨Step.offer_slots, ⟨some "Maria", some "11912345678", none⟩⟩, [("u", offerMsg "Maria")]) :=
  (C8_phone_strip (some "D") "u" ⟨Step.get_phone, ⟨some "Maria", none, none⟩⟩
    "(11) 91234-5678" rfl (by decide) (by decide)).trans (by decide)

/-- C9, counterexample: in v2, when processing throws inside the handler
body (here: the `new URL(...)` construction of the connect branch failing),
the `catch` responds with HTTP 500, not with the claimed benign 200
acknowledgment. -/
theorem C9_counterexample :
    webhookPost_v2 (some ⟨"u", some "conectar"⟩) UrlBuild.failed [] = (500, none) := rfl

/-- C9, amended: v1's inbound endpoint always returns HTTP 200 (its catch
also returns 200), and the committed session state is independent of the
delivery outcomes — `sendText` swallows its own failures, so a failed send
never rolls back the already-committed transition.  v2 likewise ignores
delivery outcomes and returns 200 whenever its body does not throw, but a
processing exception is answered with 500 (see the counterexample). -/
theorem C9_ack (dentist : Option String) (store : String → Option Session)
    (msg : Option InboundMsg) (ds ds2 : List Bool) (url : String) :
    (webhookPost_v1 dentist store msg ds = webhookPost_v1 dentist store msg ds2) ∧
    ((webhookPost_v1 dentist store msg ds).2 = 200) ∧
    (webhookPost_v2 msg (UrlBuild.ok url) ds = webhookPost_v2 msg (UrlBuild.ok url) ds2) ∧
    ((webhookPost_v2 msg (UrlBuild.ok url) ds).1 = 200) := by
  refine ⟨rfl, ?_, rfl, ?_⟩
  · cases msg with
    | none => rfl
    | some m => rfl
  · cases msg with
    | none => rfl
    | some m =>
      unfold webhookPost_v2
      dsimp only
      split
      · rfl
      · split
        · rfl
        · rfl

/-- Closed instance of amended C9: a message turn with a failing delivery
still acknowledges with 200 and commits the same session as a successful
one. -/
theorem C9_ack_witness :
    (webhookPost_v1 (some "D") (fun _ => none) (some ⟨"u", some "oi"⟩) [false] =
      webhookPost_v1 (some "D") (fun _ => none) (some ⟨"u", some "oi"⟩) [true]) ∧
    ((webhookPost_v1 (some "D") (fun _ => none) (some ⟨"u", some "oi"⟩) [false]).2 = 200) :=
  ⟨(C9_ack (some "D") (fun _ => none) (some ⟨"u", some "oi"⟩) [false] [true] "x").1,
    (C9_ack (some "D") (fun _ => none) (some ⟨"u", some "oi"⟩) [false] [true] "x").2.1⟩

/-- C10: at `offer_slots` the text is coerced with JS `Number`, so every
string whose coerced numeric value matches a catalog id is accepted as that
slot (step moves to `confirm` with the slot's label stored) — in particular
"2.0", "2e0" and "0x2" all coerce to 2 — while the empty string coerces to 0,
matches no catalog id, and is rejected with the corrective prompt. -/
theorem C10_number_coercion (dentist : Option String) (sender : String) (sess : Session)
    (t : String) (slotRec : Slot)
    (hstep : sess.step = Step.offer_slots)
    (hfind : SLOTS.find?
        (fun s => jsNumEq (JsNum.val (Frac.ofInt s.id)) (jsStringToNumber (jsTrim t))) = some slotRec) :
    processMessage dentist sender sess t =
      ({ step := Step.confirm, data := { sess.data with slot := some slotRec.when } },
        [(sender, confirmPromptMsg slotRec.when)]) ∧
    jsNumEq (jsStringToNumber "2.0") (JsNum.val (Frac.ofInt 2)) = true ∧
    jsNumEq (jsStringToNumber "2e0") (JsNum.val (Frac.ofInt 2)) = true ∧
    jsNumEq (jsStringToNumber "0x2") (JsNum.val (Frac.ofInt 2)) = true ∧
    jsNumEq (jsStringToNumber "") (JsNum.val (Frac.ofInt 0)) = true ∧
    processMessage none "u" ⟨Step.offer_slots, ⟨some "M", some "1", none⟩⟩ "" =
      (⟨Step.offer_slots, ⟨some "M", some "1", none⟩⟩, [("u", badSlotMsg)]) := by
  refine ⟨?_, by decide, by decide, by decide, by decide, by rfl⟩
  obtain ⟨q, hq⟩ : ∃ q, jsStringToNumber (jsTrim t) = JsNum.val q := by
    have hps := List.find?_some hfind
    cases hnum : jsStringToNumber (jsTrim t) with
    | val q => exact ⟨q, rfl⟩
    | nan => rw [hnum] at hps; simp [jsNumEq] at hps
    | posInf => rw [hnum] at hps; simp [jsNumEq] at hps
    | negInf => rw [hnum] at hps; simp [jsNumEq] at hps
  have hc : reTestCancelar (jsTrim t) = false := by
    by_contra hcc
    rw [Bool.not_eq_false] at hcc
    have hnan := jsStringToNumber_nan_of_cancelar (jsTrim t) hcc
    rw [hnan] at hq
    simp at hq
  have ha : reTestAgendar (jsTrim t) = false := by
    by_contra hcc
    rw [Bool.not_eq_false] at hcc
    have hnan := jsStringToNumber_nan_of_agendar (jsTrim t) hcc
    rw [hnan] at hq
    simp at hq
  simp [processMessage, hc, ha, hstep, hfind]

/-- Closed instance of C10: "2.0" selects slot 2 ("Amanhã 10:30"). -/
theorem C10_number_coercion_witness :
    processMessage none "u" ⟨Step.offer_slots, ⟨some "Maria", some "11", none⟩⟩ "2.0" =
      (⟨Step.confirm, ⟨some "Maria", some "11", some "Amanhã 10:30"⟩⟩,
        [("u", confirmPromptMsg "Amanhã 10:30")]) :=
  ((C10_number_coercion none "u" ⟨Step.offer_slots, ⟨some "Maria", some "11", none⟩⟩ "2.0"
      ⟨2, "Amanhã 10:30"⟩ rfl (by decide)).1).trans (by decide)

end SmileBot
